import Mathlib

/-!
Verification of the stdio-to-HTTP MCP protocol bridge.

Shallow embedding of the protocol bridge of the repository:

* the generic proxy (`MCPProxy` in the standalone proxy `main.go`:
  `readResponse`, `processRequests`, `Handle`),
* the GitHub proxy (`mcp-servers/github-mcp/proxy/main.go`:
  `processRequests` with its identifier-matching read loop, `formatID`,
  `Handle`),
* the Oracle SQLcl response middleware (`markOracleErrors`).

Modelling conventions:

* JSON messages are modelled as parsed `Json` values.  Raw message bytes are
  represented by the canonical serialization `serialize`; the proxies pass raw
  bytes through untouched (`json.RawMessage`), so the bytes of a line and its
  parsed value determine one another.  JSON numbers are modelled as integers (the
  identifiers exchanged here are integral; float formatting is out of scope).
* The Go `json.Unmarshal` assignment of an object field to a struct member is modelled by
  `goLookup` (last field with the matching key wins, as later duplicate keys
  overwrite earlier ones).
* The stdout of the subprocess is a list of parsed lines; reading past the end of
  the list models a read error (`bufio.Reader.ReadBytes` failing / stream
  closed).  A failing `stdin.Write` is modelled by the `writeOk` flag.
* The one-shot reply channel outcome of a pending call is `Option Json`:
  `some r` means the reply `r` was sent and the channel closed, `none` means
  the channel was closed without a value.
-/

set_option autoImplicit false

/-- JSON values as decoded by the Go package `encoding/json`. -/
inductive Json where
  | null
  | bool (b : Bool)
  | num (n : Int)
  | str (s : String)
  | arr (items : List Json)
  | obj (fields : List (String × Json))

mutual

/-- Structural (Go `==`-style) equality test on JSON values. -/
def Json.beq : Json → Json → Bool
  | .null, .null => true
  | .bool a, .bool b => a == b
  | .num a, .num b => a == b
  | .str a, .str b => a == b
  | .arr as, .arr bs => Json.beqList as bs
  | .obj fs, .obj gs => Json.beqFields fs gs
  | _, _ => false

def Json.beqList : List Json → List Json → Bool
  | [], [] => true
  | x :: xs, y :: ys => Json.beq x y && Json.beqList xs ys
  | _, _ => false

def Json.beqFields : List (String × Json) → List (String × Json) → Bool
  | [], [] => true
  | (k, v) :: fs, (k2, v2) :: gs => k == k2 && Json.beq v v2 && Json.beqFields fs gs
  | _, _ => false

end

theorem Json.beq_refl : ∀ (a : Json), Json.beq a a = true := by
  have H : ∀ (n : Nat) (a : Json), sizeOf a < n → Json.beq a a = true := by
    intro n
    induction n with
    | zero => intro a h; omega
    | succ n ih =>
      intro a h
      cases a with
      | null => simp [Json.beq]
      | bool b => simp [Json.beq]
      | num m => simp [Json.beq]
      | str s => simp [Json.beq]
      | arr items =>
        simp only [Json.arr.sizeOf_spec] at h
        simp only [Json.beq]
        induction items with
        | nil => simp [Json.beqList]
        | cons x xs ihl =>
          simp only [List.cons.sizeOf_spec] at h
          simp only [Json.beqList, Bool.and_eq_true]
          exact ⟨ih x (by omega), ihl (by omega)⟩
      | obj fields =>
        simp only [Json.obj.sizeOf_spec] at h
        simp only [Json.beq]
        induction fields with
        | nil => simp [Json.beqFields]
        | cons f fs ihl =>
          obtain ⟨k, v⟩ := f
          simp only [List.cons.sizeOf_spec, Prod.mk.sizeOf_spec] at h
          simp only [Json.beqFields, Bool.and_eq_true, beq_self_eq_true, true_and]
          exact ⟨ih v (by omega), ihl (by omega)⟩
  intro a
  exact H (sizeOf a + 1) a (by omega)

theorem Json.eq_of_beq : ∀ (a b : Json), Json.beq a b = true → a = b := by
  have H : ∀ (n : Nat) (a b : Json), sizeOf a < n → Json.beq a b = true → a = b := by
    intro n
    induction n with
    | zero => intro a b h; omega
    | succ n ih =>
      intro a b hsz hb
      cases a <;> cases b
      all_goals try (simp only [Json.beq] at hb; exact Bool.noConfusion hb)
      case null.null => rfl
      case bool.bool a b => simp only [Json.beq, beq_iff_eq] at hb; rw [hb]
      case num.num a b => simp only [Json.beq, beq_iff_eq] at hb; rw [hb]
      case str.str a b => simp only [Json.beq, beq_iff_eq] at hb; rw [hb]
      case arr.arr l1 l2 =>
        simp only [Json.beq] at hb
        simp only [Json.arr.sizeOf_spec] at hsz
        suffices h : l1 = l2 by rw [h]
        induction l1 generalizing l2 with
        | nil => cases l2 with
          | nil => rfl
          | cons y ys => simp only [Json.beqList] at hb; exact Bool.noConfusion hb
        | cons x xs ihl =>
          cases l2 with
          | nil => simp only [Json.beqList] at hb; exact Bool.noConfusion hb
          | cons y ys =>
            simp only [List.cons.sizeOf_spec] at hsz
            simp only [Json.beqList, Bool.and_eq_true] at hb
            have h1 : x = y := ih x y (by omega) hb.1
            have h2 : xs = ys := by apply ihl <;> first | exact hb.2 | omega
            rw [h1, h2]
      case obj.obj l1 l2 =>
        simp only [Json.beq] at hb
        simp only [Json.obj.sizeOf_spec] at hsz
        suffices h : l1 = l2 by rw [h]
        induction l1 generalizing l2 with
        | nil => cases l2 with
          | nil => rfl
          | cons y ys => simp only [Json.beqFields] at hb; exact Bool.noConfusion hb
        | cons f fs ihl =>
          obtain ⟨k, v⟩ := f
          cases l2 with
          | nil => simp only [Json.beqFields] at hb; exact Bool.noConfusion hb
          | cons g gs =>
            obtain ⟨k2, v2⟩ := g
            simp only [List.cons.sizeOf_spec, Prod.mk.sizeOf_spec] at hsz
            simp only [Json.beqFields, Bool.and_eq_true, beq_iff_eq] at hb
            have h1 : v = v2 := ih v v2 (by omega) hb.1.2
            have h2 : fs = gs := by apply ihl <;> first | exact hb.2 | omega
            rw [hb.1.1, h1, h2]
  intro a b
  exact H (sizeOf a + 1) a b (by omega)

instance : DecidableEq Json := fun a b =>
  if h : Json.beq a b = true then isTrue (Json.eq_of_beq a b h)
  else isFalse (fun e => h (e ▸ Json.beq_refl a))

/-- The double-quote character. -/
def quoteChar : Char := Char.ofNat 34

/-- JSON string escaping for one character (quotes, backslash, control chars). -/
def escapeChar (c : Char) : String :=
  if c = Char.ofNat 34 then String.singleton (Char.ofNat 92) ++ String.singleton (Char.ofNat 34)
  else if c = Char.ofNat 92 then String.singleton (Char.ofNat 92) ++ String.singleton (Char.ofNat 92)
  else if c = Char.ofNat 10 then String.singleton (Char.ofNat 92) ++ "n"
  else if c = Char.ofNat 9 then String.singleton (Char.ofNat 92) ++ "t"
  else if c = Char.ofNat 13 then String.singleton (Char.ofNat 92) ++ "r"
  else String.singleton c

def escapeString (s : String) : String :=
  String.join (s.toList.map escapeChar)

mutual

/-- Canonical byte encoding of a JSON value (compact `json.Marshal` style).
Raw message bytes throughout the model are the `serialize` image of their
parsed value. -/
def serialize : Json → String
  | .null => "null"
  | .bool b => if b then "true" else "false"
  | .num n => toString n
  | .str s => String.singleton quoteChar ++ escapeString s ++ String.singleton quoteChar
  | .arr items => "[" ++ serializeItems items ++ "]"
  | .obj fields => "\x7b" ++ serializeFields fields ++ "\x7d"

def serializeItems : List Json → String
  | [] => ""
  | [x] => serialize x
  | x :: y :: xs => serialize x ++ "," ++ serializeItems (y :: xs)

def serializeFields : List (String × Json) → String
  | [] => ""
  | [(k, v)] =>
      String.singleton quoteChar ++ escapeString k ++ String.singleton quoteChar ++ ":"
        ++ serialize v
  | (k, v) :: f :: fs =>
      String.singleton quoteChar ++ escapeString k ++ String.singleton quoteChar ++ ":"
        ++ serialize v ++ "," ++ serializeFields (f :: fs)

end

/-- Go `json.Unmarshal` object-field lookup: the last field whose key equals the
struct tag wins (later duplicate keys overwrite earlier assignments). -/
def goLookup (fields : List (String × Json)) (key : String) : Option Json :=
  ((fields.filter (fun kv => kv.fst == key)).getLast?).map Prod.snd

/-- The `id` seen by unmarshalling a raw message into
`MCPMessage { ID interface{} }`: `none` when the message is not a JSON object
(the unmarshal error is discarded and `ID` stays `nil`), when the `id` field is
absent, or when it is JSON `null` (unmarshalling `null` leaves `ID` `nil`). -/
def getId (j : Json) : Option Json :=
  match j with
  | .obj fields =>
    match goLookup fields "id" with
    | some .null => none
    | some v => some v
    | none => none
  | _ => none

/-- HTTP response written by a proxy handler.
`ok` is HTTP 200 with a content type and body; `accepted` is HTTP 202 with an
empty body; `badRequest` is HTTP 400 carrying the decode error text
(`http.Error`); `serverError` is HTTP 500 (`http.Error`). -/
inductive HttpOut where
  | ok (contentType : String) (body : String)
  | accepted
  | badRequest (err : String)
  | serverError (err : String)
deriving DecidableEq

/-- A queued `request` struct: the raw message and the `isRequest`
classification computed by `Handle`. -/
structure Request where
  msg : Json
  isRequest : Bool
deriving DecidableEq

/-- Outcome of processing one queued request in the `processRequests`
goroutine of a proxy. -/
structure EngineResult where
  /-- The one-shot reply channel: `some r` = reply sent, then closed;
  `none` = closed without a value. -/
  chanResult : Option Json
  /-- Whether the mismatched-identifier warning was logged. -/
  warned : Bool
  /-- Lines of subprocess stdout not consumed by this request. -/
  stdoutRest : List Json
  /-- Newline-terminated byte strings written to subprocess stdin. -/
  writes : List String
deriving DecidableEq

/-- Result of a proxy `Handle` invocation. -/
structure HandleResult where
  response : HttpOut
  /-- Newline-terminated byte strings written to subprocess stdin. -/
  writes : List String
  /-- Lines of subprocess stdout not consumed by this request. -/
  stdoutRest : List Json
deriving DecidableEq

namespace MCPProxy

/-- Generic proxy `readResponse`: read one line at a time; a message
without an `id` is a notification, logged and skipped; the first line carrying
an `id` is returned.  Exhausting the stream models `ReadBytes` failing
(`error reading from MCP server`), returning `(none, [])`. -/
def readResponse : List Json → Option Json × List Json
  | [] => (none, [])
  | line :: rest =>
    match getId line with
    | none => readResponse rest
    | some _ => (some line, rest)

/-- One iteration of the `processRequests` loop of the generic proxy.  The message
is written newline-terminated to stdin; a write error closes the reply channel
immediately (no read).  For a request, `readResponse` is consulted; a read
error closes the channel without a value. -/
def processRequest (writeOk : Bool) (req : Request) (stdout : List Json) : EngineResult :=
  if writeOk = false then
    { chanResult := none, warned := false, stdoutRest := stdout, writes := [] }
  else if req.isRequest then
    match readResponse stdout with
    | (none, rest) =>
      { chanResult := none, warned := false, stdoutRest := rest,
        writes := [serialize req.msg ++ "\n"] }
    | (some r, rest) =>
      { chanResult := some r, warned := false, stdoutRest := rest,
        writes := [serialize req.msg ++ "\n"] }
  else
    { chanResult := none, warned := false, stdoutRest := stdout,
      writes := [serialize req.msg ++ "\n"] }

/-- Generic proxy `Handle` (non-`OPTIONS` path): decode failures return
400 with the error text; otherwise the message is classified by its `id`,
queued, and the channel outcome mapped to 200/500 (requests) or 202
(notifications). -/
def Handle (body : Except String Json) (writeOk : Bool) (stdout : List Json) : HandleResult :=
  match body with
  | .error e => { response := .badRequest e, writes := [], stdoutRest := stdout }
  | .ok msg =>
    let isRequest := (getId msg).isSome
    let res := processRequest writeOk { msg := msg, isRequest := isRequest } stdout
    if isRequest then
      match res.chanResult with
      | none =>
        { response := .serverError "Failed to get response", writes := res.writes,
          stdoutRest := res.stdoutRest }
      | some resp =>
        { response := .ok "application/json" (serialize resp), writes := res.writes,
          stdoutRest := res.stdoutRest }
    else
      { response := .accepted, writes := res.writes, stdoutRest := res.stdoutRest }

end MCPProxy

namespace GithubMCP

/-- Model of `formatID`: canonicalize an identifier to the string of its JSON
serialization before comparing. -/
def formatID (id : Json) : String := serialize id

/-- The inline read loop inside `processRequests` of the GitHub proxy
(main.go:87-118): skip lines without an `id`; deliver the first line whose `id`
matches that of the request (`==` or equal `formatID` canonical strings); a line with
a non-matching `id` is still delivered, with a warning logged (`warned`).
Exhausting the stream models the read error branch, which closes the channel. -/
def readLoop (requestID : Option Json) : List Json → EngineResult
  | [] => { chanResult := none, warned := false, stdoutRest := [], writes := [] }
  | line :: rest =>
    match getId line with
    | none => readLoop requestID rest
    | some respID =>
      let matched : Bool :=
        ((some respID : Option Json) == requestID) ||
          (match requestID with
           | some rid => formatID respID == formatID rid
           | none => false)
      if matched then
        { chanResult := some line, warned := false, stdoutRest := rest, writes := [] }
      else
        { chanResult := some line, warned := true, stdoutRest := rest, writes := [] }

/-- One iteration of the `processRequests` loop of the GitHub proxy.  Note
that main.go:76 `p.stdin.Write(append(req.msg, ...))` discards the write error,
so `writeOk` does not influence control flow: even after a failed write, a
request still enters the read loop. -/
def processRequest (writeOk : Bool) (req : Request) (stdout : List Json) : EngineResult :=
  let written := if writeOk then [serialize req.msg ++ "\n"] else []
  if req.isRequest then
    let r := readLoop (getId req.msg) stdout
    { r with writes := written }
  else
    { chanResult := none, warned := false, stdoutRest := stdout, writes := written }

/-- GitHub proxy `Handle` (non-`OPTIONS` path). -/
def Handle (body : Except String Json) (writeOk : Bool) (stdout : List Json) : HandleResult :=
  match body with
  | .error e => { response := .badRequest e, writes := [], stdoutRest := stdout }
  | .ok msg =>
    let isRequest := (getId msg).isSome
    let res := processRequest writeOk { msg := msg, isRequest := isRequest } stdout
    if isRequest then
      match res.chanResult with
      | none =>
        { response := .serverError "Failed to get response", writes := res.writes,
          stdoutRest := res.stdoutRest }
      | some resp =>
        { response := .ok "application/json" (serialize resp), writes := res.writes,
          stdoutRest := res.stdoutRest }
    else
      { response := .accepted, writes := res.writes, stdoutRest := res.stdoutRest }

end GithubMCP

namespace OracleSQLcl

/-- Struct `MCPContent`: the Go field `Type` (json tag "type") is `typ` here, since
`type` is a Lean keyword. -/
structure MCPContent where
  typ : String
  text : String
deriving DecidableEq

/-- Struct `MCPResult` with `Content []MCPContent` and `IsError bool` (both `omitempty`). -/
structure MCPResult where
  content : List MCPContent
  isError : Bool
deriving DecidableEq

/-- Struct `MCPResponse`: `id` is the `ID` member of interface type (`none` = `nil`, from an
absent or `null` field); `result` and `error` are the raw `json.RawMessage`
bytes of those fields (`none` = absent, length 0). -/
structure MCPResponse where
  jsonrpc : String
  id : Option Json
  result : Option Json
  error : Option Json
deriving DecidableEq

/-- Unmarshal a string-typed struct member: absent or `null` leaves the zero
value `""`; a JSON string assigns; any other type is an unmarshal error. -/
def decodeStringField (fields : List (String × Json)) (key : String) : Option String :=
  match goLookup fields key with
  | none => some ""
  | some .null => some ""
  | some (.str s) => some s
  | some _ => none

/-- Unmarshal a bool-typed struct member (zero value `false`). -/
def decodeBoolField (fields : List (String × Json)) (key : String) : Option Bool :=
  match goLookup fields key with
  | none => some false
  | some .null => some false
  | some (.bool b) => some b
  | some _ => none

/-- Unmarshal one element of `Content` into `MCPContent`.  A `null` element is
a no-op on the zero value; a non-object is an unmarshal error. -/
def decodeMCPContent : Json → Option MCPContent
  | .obj fields => do
      let t ← decodeStringField fields "type"
      let x ← decodeStringField fields "text"
      pure { typ := t, text := x }
  | .null => some { typ := "", text := "" }
  | _ => none

/-- Element-wise unmarshalling of a JSON array into `[]MCPContent`; any
element error is an unmarshal error for the whole slice. -/
def decodeContentItems : List Json → Option (List MCPContent)
  | [] => some []
  | x :: xs => do
      let c ← decodeMCPContent x
      let cs ← decodeContentItems xs
      pure (c :: cs)

/-- Unmarshal the `content` member into `[]MCPContent` (`null` gives the nil
slice). -/
def decodeContentList : Json → Option (List MCPContent)
  | .arr items => decodeContentItems items
  | .null => some []
  | _ => none

/-- Unmarshalling `mcpResp.Result` into `MCPResult`. -/
def decodeMCPResult : Json → Option MCPResult
  | .obj fields => do
      let c ← match goLookup fields "content" with
              | none => some []
              | some v => decodeContentList v
      let e ← decodeBoolField fields "isError"
      pure { content := c, isError := e }
  | .null => some { content := [], isError := false }
  | _ => none

/-- Unmarshal the `id` member into `ID interface{}` (`null` leaves it `nil`). -/
def decodeIdField (fields : List (String × Json)) : Option Json :=
  match goLookup fields "id" with
  | some .null => none
  | some v => some v
  | none => none

/-- Unmarshalling the reply bytes into `MCPResponse`. -/
def decodeMCPResponse : Json → Option MCPResponse
  | .obj fields => do
      let v ← decodeStringField fields "jsonrpc"
      pure { jsonrpc := v, id := decodeIdField fields,
             result := goLookup fields "result", error := goLookup fields "error" }
  | .null => some { jsonrpc := "", id := none, result := none, error := none }
  | _ => none

/-- Marshalling of `MCPContent` (no `omitempty`: both fields always
present, in struct order). -/
def encodeMCPContent (c : MCPContent) : Json :=
  .obj [("type", .str c.typ), ("text", .str c.text)]

/-- Marshalling of `MCPResult`: `omitempty` drops an empty `Content` slice
and a `false` `IsError`. -/
def encodeMCPResult (r : MCPResult) : Json :=
  .obj ((if r.content.isEmpty then [] else
          [("content", .arr (r.content.map encodeMCPContent))])
        ++ (if r.isError then [("isError", .bool true)] else []))

/-- Helper for `omitempty` members that are dropped exactly when `none`. -/
def optField (key : String) : Option Json → List (String × Json)
  | some v => [(key, v)]
  | none => []

/-- Marshalling of `MCPResponse`: `jsonrpc` always present; `id`, `result`,
`error` are `omitempty`. -/
def encodeMCPResponse (m : MCPResponse) : Json :=
  .obj ([("jsonrpc", .str m.jsonrpc)] ++ optField "id" m.id
        ++ optField "result" m.result ++ optField "error" m.error)

/-- Does `ORA-` (case-insensitively) followed by at least one digit match at
the head of the text?  `pat` is the remaining literal part of the code prefix. -/
def matchesCodeAt : List Char → List Char → Bool
  | [], c :: _ => c.isDigit
  | [], [] => false
  | p :: ps, c :: cs => p.toLower == c.toLower && matchesCodeAt ps cs
  | _ :: _, [] => false

/-- Does the code pattern match anywhere in the text? -/
def containsCode (pat : List Char) : List Char → Bool
  | [] => false
  | c :: cs => matchesCodeAt pat (c :: cs) || containsCode pat cs

/-- Semantics of the regex test of `errorPattern` for
`(?i)(ORA-\d+|SP2-\d+|Error:.*(ORA-\d+|SP2-\d+))`.  The third alternative is
subsumed by the first two (any of its matches contains an `ORA-`/`SP2-` code,
which the unanchored first alternatives already find), so the regex matches
iff the text contains, case-insensitively, `ORA-` or `SP2-` immediately
followed by a digit. -/
def errorPatternMatchString (s : String) : Bool :=
  containsCode "ORA-".toList s.toList || containsCode "SP2-".toList s.toList

/-- Go `strings.Contains` on character lists. -/
def strContainsList (pat : List Char) : List Char → Bool
  | [] => pat.isPrefixOf []
  | c :: cs => pat.isPrefixOf (c :: cs) || strContainsList pat cs

/-- Go `strings.Contains(s, pat)`. -/
def strContains (s pat : String) : Bool := strContainsList pat.toList s.toList

/-- The content scan of `markOracleErrors`: some `"text"`-typed entry matches
`errorPattern` or contains the literal `"Error:"`. -/
def hasOracleError (result : MCPResult) : Bool :=
  result.content.any fun content =>
    content.typ == "text" &&
      (errorPatternMatchString content.text || strContains content.text "Error:")

/-- Model of `markOracleErrors`: `markErrors` is the value of the
`MARK_SQL_ERRORS_AS_ERROR` environment variable.  Follows the source
control flow: disabled flag, envelope decode error, empty `Result`, result
decode error, and already-`IsError` results all return the reply untouched;
a detected Oracle error re-marshals the result with `IsError=true` and
re-marshals the envelope around it. -/
def markOracleErrors (markErrors : String) (response : Json) : Json :=
  if markErrors != "true" && markErrors != "1" then response
  else
    match decodeMCPResponse response with
    | none => response
    | some mcpResp =>
      match mcpResp.result with
      | none => response
      | some resultRaw =>
        match decodeMCPResult resultRaw with
        | none => response
        | some result =>
          if result.isError then response
          else if hasOracleError result then
            encodeMCPResponse
              { mcpResp with result := some (encodeMCPResult { result with isError := true }) }
          else response

/-- Top-level keys of a JSON object (empty for non-objects). -/
def objKeys : Json → List String
  | .obj fields => fields.map Prod.fst
  | _ => []

end OracleSQLcl

/-! Engine lemmas. -/

theorem MCPProxy.readResponse_append_notifs (notifs : List Json) (rest : List Json)
    (hn : ∀ l ∈ notifs, getId l = none) :
    MCPProxy.readResponse (notifs ++ rest) = MCPProxy.readResponse rest := by
  induction notifs with
  | nil => rfl
  | cons x xs ih =>
    have hx : getId x = none := hn x (by simp)
    simp only [List.cons_append, MCPProxy.readResponse, hx]
    exact ih (fun l hl => hn l (by simp [hl]))

theorem MCPProxy.readResponse_cons_id (line : Json) (rest : List Json) (i : Json)
    (h : getId line = some i) :
    MCPProxy.readResponse (line :: rest) = (some line, rest) := by
  simp only [MCPProxy.readResponse, h]

theorem GithubMCP.readLoop_append_notifs (rid : Option Json) (notifs : List Json)
    (rest : List Json) (hn : ∀ l ∈ notifs, getId l = none) :
    GithubMCP.readLoop rid (notifs ++ rest) = GithubMCP.readLoop rid rest := by
  induction notifs with
  | nil => rfl
  | cons x xs ih =>
    have hx : getId x = none := hn x (by simp)
    simp only [List.cons_append, GithubMCP.readLoop, hx]
    exact ih (fun l hl => hn l (by simp [hl]))

theorem GithubMCP.readLoop_cons_match (line : Json) (rest : List Json) (i : Json)
    (h : getId line = some i) :
    GithubMCP.readLoop (some i) (line :: rest) =
      { chanResult := some line, warned := false, stdoutRest := rest, writes := [] } := by
  simp [GithubMCP.readLoop, h]

theorem GithubMCP.readLoop_cons_mismatch (line : Json) (rest : List Json) (i j : Json)
    (h : getId line = some j) (hne : GithubMCP.formatID j ≠ GithubMCP.formatID i) :
    GithubMCP.readLoop (some i) (line :: rest) =
      { chanResult := some line, warned := true, stdoutRest := rest, writes := [] } := by
  have hji : j ≠ i := fun e => hne (by rw [e])
  simp [GithubMCP.readLoop, h, hji, hne]

/-! Claims about the correlation engines. -/

/-- C1: While a call with identifier `I` is pending, the read loop skips every
line whose parsed identifier is absent (an unsolicited notification: it is
logged and the next line is read) and delivers the first subsequent line
carrying the caller identifier `I`; a caller is never satisfied with a
notification line.  Holds for the generic proxy `readResponse` and for the
GitHub proxy matching loop (which delivers it as a match, no warning). -/
theorem C1_notifications_skipped (notifs : List Json) (reply : Json) (rest : List Json)
    (I : Json) (hn : ∀ l ∈ notifs, getId l = none) (hr : getId reply = some I) :
    MCPProxy.readResponse (notifs ++ reply :: rest) = (some reply, rest)
    ∧ GithubMCP.readLoop (some I) (notifs ++ reply :: rest) =
        { chanResult := some reply, warned := false, stdoutRest := rest, writes := [] } :=
  ⟨(MCPProxy.readResponse_append_notifs notifs (reply :: rest) hn).trans
      (MCPProxy.readResponse_cons_id reply rest I hr),
   (GithubMCP.readLoop_append_notifs (some I) notifs (reply :: rest) hn).trans
      (GithubMCP.readLoop_cons_match reply rest I hr)⟩

/-- Witness for C1: the reference scenario — three notification lines precede
the reply with id `42`; the caller receives exactly the reply line. -/
theorem C1_notifications_skipped_witness :
    MCPProxy.readResponse
        ([Json.obj [("jsonrpc", .str "2.0"), ("method", .str "notifications/one")],
          Json.obj [("jsonrpc", .str "2.0"), ("method", .str "notifications/two")],
          Json.obj [("jsonrpc", .str "2.0"), ("method", .str "notifications/three")]] ++
          Json.obj [("jsonrpc", .str "2.0"), ("id", .num 42),
                    ("result", .obj [("data", .str "test")])] :: []) =
      (some (Json.obj [("jsonrpc", .str "2.0"), ("id", .num 42),
                       ("result", .obj [("data", .str "test")])]), [])
    ∧ GithubMCP.readLoop (some (Json.num 42))
        ([Json.obj [("jsonrpc", .str "2.0"), ("method", .str "notifications/one")],
          Json.obj [("jsonrpc", .str "2.0"), ("method", .str "notifications/two")],
          Json.obj [("jsonrpc", .str "2.0"), ("method", .str "notifications/three")]] ++
          Json.obj [("jsonrpc", .str "2.0"), ("id", .num 42),
                    ("result", .obj [("data", .str "test")])] :: []) =
        { chanResult := some (Json.obj [("jsonrpc", .str "2.0"), ("id", .num 42),
                                        ("result", .obj [("data", .str "test")])]),
          warned := false, stdoutRest := [], writes := [] } :=
  C1_notifications_skipped _ _ _ _ (by decide) (by decide)

/-- C2: An HTTP request whose body is a call envelope with identifier `I`,
served while the next identifier-bearing subprocess output line carries the
same identifier `I`, is answered with HTTP 200, content type
`application/json`, and a body byte-for-byte equal to that output line.
Holds for both proxies. -/
theorem C2_call_gets_matching_reply (msg I : Json) (notifs : List Json) (reply : Json)
    (rest : List Json) (hm : getId msg = some I) (hn : ∀ l ∈ notifs, getId l = none)
    (hr : getId reply = some I) :
    MCPProxy.Handle (.ok msg) true (notifs ++ reply :: rest) =
      { response := .ok "application/json" (serialize reply),
        writes := [serialize msg ++ "\n"], stdoutRest := rest }
    ∧ GithubMCP.Handle (.ok msg) true (notifs ++ reply :: rest) =
      { response := .ok "application/json" (serialize reply),
        writes := [serialize msg ++ "\n"], stdoutRest := rest } := by
  have h1 := (MCPProxy.readResponse_append_notifs notifs (reply :: rest) hn).trans
    (MCPProxy.readResponse_cons_id reply rest I hr)
  have h2 := (GithubMCP.readLoop_append_notifs (some I) notifs (reply :: rest) hn).trans
    (GithubMCP.readLoop_cons_match reply rest I hr)
  constructor
  · simp [MCPProxy.Handle, MCPProxy.processRequest, hm, h1]
  · simp [GithubMCP.Handle, GithubMCP.processRequest, hm, h2]

/-- Witness for C2: a call with id `7` answered by an echoed reply with id `7`
after one notification. -/
theorem C2_call_gets_matching_reply_witness :
    MCPProxy.Handle (.ok (Json.obj [("jsonrpc", .str "2.0"), ("id", .num 7),
                                    ("method", .str "test")]))
        true
        ([Json.obj [("method", .str "notifications/progress")]] ++
          Json.obj [("jsonrpc", .str "2.0"), ("id", .num 7), ("result", .obj [])] :: []) =
      { response := .ok "application/json"
          (serialize (Json.obj [("jsonrpc", .str "2.0"), ("id", .num 7),
                                ("result", .obj [])])),
        writes := [serialize (Json.obj [("jsonrpc", .str "2.0"), ("id", .num 7),
                                        ("method", .str "test")]) ++ "\n"],
        stdoutRest := [] }
    ∧ GithubMCP.Handle (.ok (Json.obj [("jsonrpc", .str "2.0"), ("id", .num 7),
                                       ("method", .str "test")]))
        true
        ([Json.obj [("method", .str "notifications/progress")]] ++
          Json.obj [("jsonrpc", .str "2.0"), ("id", .num 7), ("result", .obj [])] :: []) =
      { response := .ok "application/json"
          (serialize (Json.obj [("jsonrpc", .str "2.0"), ("id", .num 7),
                                ("result", .obj [])])),
        writes := [serialize (Json.obj [("jsonrpc", .str "2.0"), ("id", .num 7),
                                        ("method", .str "test")]) ++ "\n"],
        stdoutRest := [] } :=
  C2_call_gets_matching_reply _ (Json.num 7) _ _ _ (by decide) (by decide) (by decide)

/-- C3: If, while a call with identifier `I` is pending, the first
identifier-bearing line carries a different identifier (canonicalized
serialized forms differ), the GitHub proxy engine still delivers that line
to the current caller — never silently dropping it — logging a warning, and the
HTTP caller receives it with status 200.  (The generic proxy `readResponse`
performs no identifier comparison at all, so it likewise returns such a
line.) -/
theorem C3_mismatched_reply_delivered (msg I : Json) (notifs : List Json) (reply J : Json)
    (rest : List Json) (hm : getId msg = some I) (hn : ∀ l ∈ notifs, getId l = none)
    (hr : getId reply = some J) (hne : GithubMCP.formatID J ≠ GithubMCP.formatID I) :
    GithubMCP.readLoop (some I) (notifs ++ reply :: rest) =
      { chanResult := some reply, warned := true, stdoutRest := rest, writes := [] }
    ∧ GithubMCP.Handle (.ok msg) true (notifs ++ reply :: rest) =
      { response := .ok "application/json" (serialize reply),
        writes := [serialize msg ++ "\n"], stdoutRest := rest }
    ∧ MCPProxy.readResponse (notifs ++ reply :: rest) = (some reply, rest) := by
  have h2 := (GithubMCP.readLoop_append_notifs (some I) notifs (reply :: rest) hn).trans
    (GithubMCP.readLoop_cons_mismatch reply rest I J hr hne)
  refine ⟨h2, ?_, (MCPProxy.readResponse_append_notifs notifs (reply :: rest) hn).trans
    (MCPProxy.readResponse_cons_id reply rest J hr)⟩
  simp [GithubMCP.Handle, GithubMCP.processRequest, hm, h2]

/-- Witness for C3: the caller requested id `1` but the subprocess replies
with id `2`; the reply is still surfaced with a warning and HTTP 200. -/
theorem C3_mismatched_reply_delivered_witness :
    GithubMCP.readLoop (some (Json.num 1))
        ([] ++ Json.obj [("jsonrpc", .str "2.0"), ("id", .num 2),
                         ("result", .obj [])] :: []) =
      { chanResult := some (Json.obj [("jsonrpc", .str "2.0"), ("id", .num 2),
                                      ("result", .obj [])]),
        warned := true, stdoutRest := [], writes := [] }
    ∧ GithubMCP.Handle (.ok (Json.obj [("id", .num 1), ("method", .str "test")])) true
        ([] ++ Json.obj [("jsonrpc", .str "2.0"), ("id", .num 2),
                         ("result", .obj [])] :: []) =
      { response := .ok "application/json"
          (serialize (Json.obj [("jsonrpc", .str "2.0"), ("id", .num 2),
                                ("result", .obj [])])),
        writes := [serialize (Json.obj [("id", .num 1), ("method", .str "test")]) ++ "\n"],
        stdoutRest := [] }
    ∧ MCPProxy.readResponse
        ([] ++ Json.obj [("jsonrpc", .str "2.0"), ("id", .num 2),
                         ("result", .obj [])] :: []) =
      (some (Json.obj [("jsonrpc", .str "2.0"), ("id", .num 2), ("result", .obj [])]), []) :=
  C3_mismatched_reply_delivered _ (Json.num 1) _ _ (Json.num 2) _
    (by decide) (by decide) (by decide) (by decide)

theorem MCPProxy.mcpHandle_ok_not_badRequest (msg : Json) (writeOk : Bool) (stdout : List Json)
    (e2 : String) :
    (MCPProxy.Handle (.ok msg) writeOk stdout).response ≠ .badRequest e2 := by
  simp only [MCPProxy.Handle]
  split
  · split <;> simp
  · simp

theorem GithubMCP.githubHandle_ok_not_badRequest (msg : Json) (writeOk : Bool) (stdout : List Json)
    (e2 : String) :
    (GithubMCP.Handle (.ok msg) writeOk stdout).response ≠ .badRequest e2 := by
  simp only [GithubMCP.Handle]
  split
  · split <;> simp
  · simp

/-- C4 counterexample: in the GitHub proxy a failed stdin write does NOT
terminate the pending call — the `Write` error is discarded (main.go:76), the
read loop still runs, and here the caller receives HTTP 200 with the reply,
not the claimed 500/TransportError termination. -/
theorem C4_counterexample :
    GithubMCP.Handle (.ok (Json.obj [("id", .num 3), ("method", .str "test")])) false
        [Json.obj [("id", .num 3), ("result", .str "ok")]] =
      { response := .ok "application/json"
          (serialize (Json.obj [("id", .num 3), ("result", .str "ok")])),
        writes := [], stdoutRest := [] }
    ∧ (GithubMCP.Handle (.ok (Json.obj [("id", .num 3), ("method", .str "test")])) false
        [Json.obj [("id", .num 3), ("result", .str "ok")]]).response ≠
        HttpOut.serverError "Failed to get response" := by
  decide

/-- C4 (amended): for a call envelope, the GENERIC proxy terminates the
pending call immediately on a stdin write failure — reply channel closed
without a value, no reads attempted, HTTP 500; and in BOTH proxies a stdout
read failure (stream closed before any identifier-bearing line) closes the
channel without a value and the HTTP caller receives 500.  The GitHub proxy,
however, discards stdin write errors and still attempts the read
(see `C4_counterexample`). -/
theorem C4_transport_errors (req : Request) (msg : Json) (stdout : List Json)
    (hcall : (getId msg).isSome = true) (hn : ∀ l ∈ stdout, getId l = none) :
    MCPProxy.processRequest false req stdout =
      { chanResult := none, warned := false, stdoutRest := stdout, writes := [] }
    ∧ MCPProxy.Handle (.ok msg) false stdout =
      { response := .serverError "Failed to get response", writes := [],
        stdoutRest := stdout }
    ∧ MCPProxy.Handle (.ok msg) true stdout =
      { response := .serverError "Failed to get response",
        writes := [serialize msg ++ "\n"], stdoutRest := [] }
    ∧ GithubMCP.Handle (.ok msg) true stdout =
      { response := .serverError "Failed to get response",
        writes := [serialize msg ++ "\n"], stdoutRest := [] } := by
  have h1 : MCPProxy.readResponse stdout = (none, []) := by
    have h := MCPProxy.readResponse_append_notifs stdout [] hn
    simpa using h
  have h2 : GithubMCP.readLoop (getId msg) stdout =
      { chanResult := none, warned := false, stdoutRest := [], writes := [] } := by
    have h := GithubMCP.readLoop_append_notifs (getId msg) stdout [] hn
    simpa using h
  refine ⟨by simp [MCPProxy.processRequest], ?_, ?_, ?_⟩
  · simp [MCPProxy.Handle, MCPProxy.processRequest, hcall]
  · simp [MCPProxy.Handle, MCPProxy.processRequest, hcall, h1]
  · simp [GithubMCP.Handle, GithubMCP.processRequest, hcall, h2]

/-- Witness for the amended C4 statement: a call with id `1`; the stream closes
after one notification line; both proxies answer 500, and the generic proxy
answers 500 immediately on a write failure. -/
theorem C4_transport_errors_witness :
    MCPProxy.processRequest false { msg := Json.null, isRequest := true }
        [Json.obj [("method", .str "notifications/x")]] =
      { chanResult := none, warned := false,
        stdoutRest := [Json.obj [("method", .str "notifications/x")]], writes := [] }
    ∧ MCPProxy.Handle (.ok (Json.obj [("id", .num 1)])) false
        [Json.obj [("method", .str "notifications/x")]] =
      { response := .serverError "Failed to get response", writes := [],
        stdoutRest := [Json.obj [("method", .str "notifications/x")]] }
    ∧ MCPProxy.Handle (.ok (Json.obj [("id", .num 1)])) true
        [Json.obj [("method", .str "notifications/x")]] =
      { response := .serverError "Failed to get response",
        writes := [serialize (Json.obj [("id", .num 1)]) ++ "\n"], stdoutRest := [] }
    ∧ GithubMCP.Handle (.ok (Json.obj [("id", .num 1)])) true
        [Json.obj [("method", .str "notifications/x")]] =
      { response := .serverError "Failed to get response",
        writes := [serialize (Json.obj [("id", .num 1)]) ++ "\n"], stdoutRest := [] } :=
  C4_transport_errors { msg := Json.null, isRequest := true } (Json.obj [("id", .num 1)])
    [Json.obj [("method", .str "notifications/x")]] (by decide) (by decide)

/-- C5: an HTTP request whose body is a notification envelope (no identifier)
is answered HTTP 202 with an empty body once the engine has processed the
write, with no read of subprocess output attempted (`stdoutRest` is the whole
stream, untouched), regardless of what the subprocess subsequently emits.
Holds for both proxies, for either write outcome. -/
theorem C5_notification_202 (msg : Json) (writeOk : Bool) (stdout : List Json)
    (hm : getId msg = none) :
    MCPProxy.Handle (.ok msg) writeOk stdout =
      { response := .accepted,
        writes := if writeOk then [serialize msg ++ "\n"] else [], stdoutRest := stdout }
    ∧ GithubMCP.Handle (.ok msg) writeOk stdout =
      { response := .accepted,
        writes := if writeOk then [serialize msg ++ "\n"] else [], stdoutRest := stdout } := by
  constructor <;> cases writeOk <;>
    simp [MCPProxy.Handle, GithubMCP.Handle, MCPProxy.processRequest,
      GithubMCP.processRequest, hm]

/-- Witness for C5: a notification, with the subprocess about to emit an
identifier-bearing line that is left unread. -/
theorem C5_notification_202_witness :
    MCPProxy.Handle (.ok (Json.obj [("jsonrpc", .str "2.0"),
                                    ("method", .str "notifications/initialized")]))
        true [Json.obj [("id", .num 9)]] =
      { response := .accepted,
        writes := if true then
            [serialize (Json.obj [("jsonrpc", .str "2.0"),
                                  ("method", .str "notifications/initialized")]) ++ "\n"]
          else [],
        stdoutRest := [Json.obj [("id", .num 9)]] }
    ∧ GithubMCP.Handle (.ok (Json.obj [("jsonrpc", .str "2.0"),
                                       ("method", .str "notifications/initialized")]))
        true [Json.obj [("id", .num 9)]] =
      { response := .accepted,
        writes := if true then
            [serialize (Json.obj [("jsonrpc", .str "2.0"),
                                  ("method", .str "notifications/initialized")]) ++ "\n"]
          else [],
        stdoutRest := [Json.obj [("id", .num 9)]] } :=
  C5_notification_202 _ true [Json.obj [("id", .num 9)]] (by decide)

/-- C6: a request body that fails to decode is answered HTTP 400 with the
decode error text as the body, and nothing is written to the subprocess;
a body that decodes successfully never reaches the 400 branch.  Holds for
both proxies. -/
theorem C6_decode_failure_400 (e : String) (writeOk : Bool) (stdout : List Json) :
    MCPProxy.Handle (.error e) writeOk stdout =
      { response := .badRequest e, writes := [], stdoutRest := stdout }
    ∧ GithubMCP.Handle (.error e) writeOk stdout =
      { response := .badRequest e, writes := [], stdoutRest := stdout }
    ∧ ∀ (msg : Json) (e2 : String),
        (MCPProxy.Handle (.ok msg) writeOk stdout).response ≠ .badRequest e2
        ∧ (GithubMCP.Handle (.ok msg) writeOk stdout).response ≠ .badRequest e2 :=
  ⟨rfl, rfl, fun msg e2 =>
    ⟨MCPProxy.mcpHandle_ok_not_badRequest msg writeOk stdout e2,
     GithubMCP.githubHandle_ok_not_badRequest msg writeOk stdout e2⟩⟩

/-- C10: any valid JSON body that is not an object carrying a non-null `id` —
in particular every string, number, boolean, array, and `null` — is accepted,
classified as a notification, written verbatim with a trailing newline to the
subprocess stdin, and answered HTTP 202 with an empty body; it is never
rejected with 400.  Holds for both proxies. -/
theorem C10_nonid_body_is_notification (j : Json) (stdout : List Json)
    (h : getId j = none) :
    MCPProxy.Handle (.ok j) true stdout =
      { response := .accepted, writes := [serialize j ++ "\n"], stdoutRest := stdout }
    ∧ GithubMCP.Handle (.ok j) true stdout =
      { response := .accepted, writes := [serialize j ++ "\n"], stdoutRest := stdout }
    ∧ (∀ s, getId (Json.str s) = none) ∧ (∀ n, getId (Json.num n) = none)
    ∧ (∀ b, getId (Json.bool b) = none) ∧ getId Json.null = none
    ∧ ∀ items, getId (Json.arr items) = none := by
  refine ⟨?_, ?_, fun s => rfl, fun n => rfl, fun b => rfl, rfl, fun items => rfl⟩
  · simp [MCPProxy.Handle, MCPProxy.processRequest, h]
  · simp [GithubMCP.Handle, GithubMCP.processRequest, h]

/-- Witness for C10: a bare JSON string body is accepted as a notification. -/
theorem C10_nonid_body_is_notification_witness :
    MCPProxy.Handle (.ok (Json.str "hello")) true [] =
      { response := .accepted, writes := [serialize (Json.str "hello") ++ "\n"],
        stdoutRest := [] }
    ∧ GithubMCP.Handle (.ok (Json.str "hello")) true [] =
      { response := .accepted, writes := [serialize (Json.str "hello") ++ "\n"],
        stdoutRest := [] }
    ∧ (∀ s, getId (Json.str s) = none) ∧ (∀ n, getId (Json.num n) = none)
    ∧ (∀ b, getId (Json.bool b) = none) ∧ getId Json.null = none
    ∧ ∀ items, getId (Json.arr items) = none :=
  C10_nonid_body_is_notification (Json.str "hello") [] (by decide)

/-! Middleware lemmas. -/

namespace OracleSQLcl

theorem decodeMCPContent_encode (c : MCPContent) :
    decodeMCPContent (encodeMCPContent c) = some c := rfl

theorem decodeContentItems_encode (l : List MCPContent) :
    decodeContentItems (l.map encodeMCPContent) = some l := by
  induction l with
  | nil => rfl
  | cons x xs ih => simp [decodeContentItems, decodeMCPContent_encode, ih]

theorem decodeContentList_encode (l : List MCPContent) :
    decodeContentList (.arr (l.map encodeMCPContent)) = some l := by
  simp [decodeContentList, decodeContentItems_encode]

theorem decodeMCPResult_encode (r : MCPResult) (h : r.isError = true) :
    decodeMCPResult (encodeMCPResult r) = some r := by
  obtain ⟨c, e⟩ := r
  simp only at h
  subst h
  cases c with
  | nil => rfl
  | cons x xs =>
    have h2 := decodeContentItems_encode (x :: xs)
    simp only [List.map_cons] at h2
    simp [encodeMCPResult, decodeMCPResult, goLookup, decodeBoolField,
      decodeContentList, h2]

theorem decodeIdField_ne_null (fields : List (String × Json)) :
    decodeIdField fields ≠ some Json.null := by
  unfold decodeIdField
  rcases hg : goLookup fields "id" with _ | v
  · simp
  · cases v <;> simp

theorem decodeMCPResponse_id_ne_null (j : Json) (m : MCPResponse)
    (h : decodeMCPResponse j = some m) : m.id ≠ some Json.null := by
  cases j with
  | obj fields =>
    simp only [decodeMCPResponse] at h
    rcases hv : decodeStringField fields "jsonrpc" with _ | v <;> rw [hv] at h <;> simp at h
    rw [← h]
    exact decodeIdField_ne_null fields
  | null =>
    simp only [decodeMCPResponse, Option.some.injEq] at h
    rw [← h]
    simp
  | bool b => simp [decodeMCPResponse] at h
  | num n => simp [decodeMCPResponse] at h
  | str s => simp [decodeMCPResponse] at h
  | arr items => simp [decodeMCPResponse] at h

theorem decodeMCPResponse_encode (m : MCPResponse) (hid : m.id ≠ some Json.null) :
    decodeMCPResponse (encodeMCPResponse m) = some m := by
  obtain ⟨s, i, r, e⟩ := m
  cases i with
  | none => cases r <;> cases e <;> rfl
  | some v =>
    cases v <;> cases r <;> cases e <;> first | rfl | exact absurd rfl hid

end OracleSQLcl

namespace OracleSQLcl

theorem flagCond_false (flag : String) (h : flag = "true" ∨ flag = "1") :
    (flag != "true" && flag != "1") = false := by
  rcases h with h | h <;> simp [h]

theorem flagCond_cases (flag : String) (h : ¬((flag != "true" && flag != "1") = true)) :
    flag = "true" ∨ flag = "1" := by
  by_contra hc
  push_neg at hc
  simp [bne_iff_ne, hc.1, hc.2] at h

/-- The transform `markOracleErrors` either returns the reply untouched, or (flag enabled,
envelope and result decoded, result not yet an error, an Oracle error
detected) re-marshals the envelope with `IsError` promoted to `true`. -/
theorem markOracleErrors_cases (flag : String) (j : Json) :
    markOracleErrors flag j = j
    ∨ ∃ m result resultRaw,
        decodeMCPResponse j = some m ∧ m.result = some resultRaw
        ∧ decodeMCPResult resultRaw = some result ∧ result.isError = false
        ∧ hasOracleError result = true ∧ (flag = "true" ∨ flag = "1")
        ∧ markOracleErrors flag j =
            encodeMCPResponse
              { m with result := some (encodeMCPResult { result with isError := true }) } := by
  by_cases hf : (flag != "true" && flag != "1") = true
  · left; simp [markOracleErrors, hf]
  · rcases hd : decodeMCPResponse j with _ | m
    · left; simp [markOracleErrors, hf, hd]
    · rcases hr : m.result with _ | resultRaw
      · left; simp [markOracleErrors, hf, hd, hr]
      · rcases hres : decodeMCPResult resultRaw with _ | result
        · left; simp [markOracleErrors, hf, hd, hr, hres]
        · by_cases he : result.isError = true
          · left; simp [markOracleErrors, hf, hd, hr, hres, he]
          · by_cases ho : hasOracleError result = true
            · right
              exact ⟨m, result, resultRaw, rfl, hr, hres, by simpa using he, ho,
                flagCond_cases flag hf,
                by simp [markOracleErrors, hf, hd, hr, hres, he, ho]⟩
            · left; simp [markOracleErrors, hf, hd, hr, hres, he, ho]

end OracleSQLcl

/-! Claims about the response middleware. -/

open OracleSQLcl

/-- C7: with the enabling flag set and a reply whose decoded result is not
already flagged as an error: if some content entry of type `"text"` matches
the fixed Oracle error patterns (`ORA-`/`SP2-` codes via `errorPattern`, or the
literal `"Error:"` marker), `markOracleErrors` returns the envelope with the
result flag `isError` set to `true` and the payload re-marshalled; if no entry
matches, the reply is returned byte-for-byte unchanged. -/
theorem C7_oracle_error_promotion (flag : String) (j : Json) (m : MCPResponse)
    (resultRaw : Json) (result : MCPResult)
    (hflag : flag = "true" ∨ flag = "1")
    (hd : decodeMCPResponse j = some m)
    (hr : m.result = some resultRaw)
    (hres : decodeMCPResult resultRaw = some result)
    (hne : result.isError = false) :
    (hasOracleError result = true →
      markOracleErrors flag j =
        encodeMCPResponse
          { m with result := some (encodeMCPResult { result with isError := true }) })
    ∧ (hasOracleError result = false → markOracleErrors flag j = j) := by
  have hcond := flagCond_false flag hflag
  constructor <;> intro ho <;>
    simp [markOracleErrors, hcond, hd, hr, hres, hne, ho]

/-- Witness for C7: a textually reported `ORA-00942` inside a structurally
successful reply is promoted to `isError = true`. -/
theorem C7_oracle_error_promotion_witness :
    markOracleErrors "true"
        (Json.obj [("jsonrpc", .str "2.0"), ("id", .num 2),
          ("result", .obj [("content", .arr [.obj [("type", .str "text"),
            ("text", .str "Error: ORA-00942: table or view does not exist")]])])]) =
      encodeMCPResponse
        { jsonrpc := "2.0", id := some (.num 2),
          result := some (encodeMCPResult
            { content := [{ typ := "text",
                            text := "Error: ORA-00942: table or view does not exist" }],
              isError := true }),
          error := none } :=
  (C7_oracle_error_promotion "true"
      (Json.obj [("jsonrpc", .str "2.0"), ("id", .num 2),
        ("result", .obj [("content", .arr [.obj [("type", .str "text"),
          ("text", .str "Error: ORA-00942: table or view does not exist")]])])])
      { jsonrpc := "2.0", id := some (.num 2),
        result := some (.obj [("content", .arr [.obj [("type", .str "text"),
          ("text", .str "Error: ORA-00942: table or view does not exist")]])]),
        error := none }
      (.obj [("content", .arr [.obj [("type", .str "text"),
        ("text", .str "Error: ORA-00942: table or view does not exist")]])])
      { content := [{ typ := "text",
                      text := "Error: ORA-00942: table or view does not exist" }],
        isError := false }
      (Or.inl rfl) (by decide) (by decide) (by decide) (by decide)).1 (by decide)

/-- C8: `markOracleErrors` is idempotent — applying it to its own output
yields that output unchanged; a reply already marked `isError = true` is
returned byte-for-byte unchanged; and it never fails the request — an
envelope that does not decode, an absent result, or a result that does not
decode all return the original reply untouched. -/
theorem C8_idempotent_failopen (flag : String) (j : Json) :
    markOracleErrors flag (markOracleErrors flag j) = markOracleErrors flag j
    ∧ (∀ m resultRaw result, decodeMCPResponse j = some m → m.result = some resultRaw →
        decodeMCPResult resultRaw = some result → result.isError = true →
        markOracleErrors flag j = j)
    ∧ (decodeMCPResponse j = none → markOracleErrors flag j = j)
    ∧ (∀ m, decodeMCPResponse j = some m → m.result = none → markOracleErrors flag j = j)
    ∧ (∀ m resultRaw, decodeMCPResponse j = some m → m.result = some resultRaw →
        decodeMCPResult resultRaw = none → markOracleErrors flag j = j) := by
  refine ⟨?_, ?_, ?_, ?_, ?_⟩
  · rcases markOracleErrors_cases flag j with h |
      ⟨m, result, resultRaw, hd, hr, hres, he, ho, hflag, heq⟩
    · rw [h]; exact h
    · rw [heq]
      have hcond := flagCond_false flag hflag
      have hidne : m.id ≠ some Json.null := decodeMCPResponse_id_ne_null j m hd
      have hdec : decodeMCPResponse (encodeMCPResponse
          { m with result := some (encodeMCPResult { result with isError := true }) }) =
          some { m with result := some (encodeMCPResult { result with isError := true }) } :=
        decodeMCPResponse_encode _ (by simpa using hidne)
      have hres2 : decodeMCPResult (encodeMCPResult { result with isError := true }) =
          some { result with isError := true } :=
        decodeMCPResult_encode _ rfl
      simp [markOracleErrors, hcond, hdec, hres2]
  · intro m resultRaw result hd hr hres he
    by_cases hf : (flag != "true" && flag != "1") = true
    · simp [markOracleErrors, hf]
    · simp [markOracleErrors, hf, hd, hr, hres, he]
  · intro hd
    by_cases hf : (flag != "true" && flag != "1") = true
    · simp [markOracleErrors, hf]
    · simp [markOracleErrors, hf, hd]
  · intro m hd hr
    by_cases hf : (flag != "true" && flag != "1") = true
    · simp [markOracleErrors, hf]
    · simp [markOracleErrors, hf, hd, hr]
  · intro m resultRaw hd hr hres
    by_cases hf : (flag != "true" && flag != "1") = true
    · simp [markOracleErrors, hf]
    · simp [markOracleErrors, hf, hd, hr, hres]

/-- Witness for C8: a reply already flagged `isError = true` is returned
unchanged, and re-applying the transform is a no-op. -/
theorem C8_idempotent_failopen_witness :
    markOracleErrors "true"
        (markOracleErrors "true"
          (Json.obj [("jsonrpc", .str "2.0"), ("id", .num 1),
            ("result", .obj [("content", .arr [.obj [("type", .str "text"),
              ("text", .str "ORA-00001: unique constraint violated")]]),
              ("isError", .bool true)])])) =
      markOracleErrors "true"
        (Json.obj [("jsonrpc", .str "2.0"), ("id", .num 1),
          ("result", .obj [("content", .arr [.obj [("type", .str "text"),
            ("text", .str "ORA-00001: unique constraint violated")]]),
            ("isError", .bool true)])])
    ∧ markOracleErrors "true"
        (Json.obj [("jsonrpc", .str "2.0"), ("id", .num 1),
          ("result", .obj [("content", .arr [.obj [("type", .str "text"),
            ("text", .str "ORA-00001: unique constraint violated")]]),
            ("isError", .bool true)])]) =
      Json.obj [("jsonrpc", .str "2.0"), ("id", .num 1),
        ("result", .obj [("content", .arr [.obj [("type", .str "text"),
          ("text", .str "ORA-00001: unique constraint violated")]]),
          ("isError", .bool true)])] :=
  ⟨(C8_idempotent_failopen "true"
      (Json.obj [("jsonrpc", .str "2.0"), ("id", .num 1),
        ("result", .obj [("content", .arr [.obj [("type", .str "text"),
          ("text", .str "ORA-00001: unique constraint violated")]]),
          ("isError", .bool true)])])).1,
   (C8_idempotent_failopen "true"
      (Json.obj [("jsonrpc", .str "2.0"), ("id", .num 1),
        ("result", .obj [("content", .arr [.obj [("type", .str "text"),
          ("text", .str "ORA-00001: unique constraint violated")]]),
          ("isError", .bool true)])])).2.1
     { jsonrpc := "2.0", id := some (.num 1),
       result := some (.obj [("content", .arr [.obj [("type", .str "text"),
         ("text", .str "ORA-00001: unique constraint violated")]]),
         ("isError", .bool true)]),
       error := none }
     (.obj [("content", .arr [.obj [("type", .str "text"),
       ("text", .str "ORA-00001: unique constraint violated")]]),
       ("isError", .bool true)])
     { content := [{ typ := "text", text := "ORA-00001: unique constraint violated" }],
       isError := true }
     (by decide) (by decide) (by decide) (by decide)⟩

/-- C9: whenever `markOracleErrors` rewrites a reply, the re-marshalled output
is exactly the re-encoding of the decoded envelope (so it retains only the
`jsonrpc`, `id`, `result`, `error` fields of the envelope and only the
`content`, `isError` fields of the result — every other original field is
dropped by the rewrite); whenever no rewrite occurs, the reply is returned
identical to the input. -/
theorem C9_rewrite_keeps_known_fields (flag : String) (j : Json) :
    markOracleErrors flag j = j
    ∨ ∃ m result resultRaw,
        decodeMCPResponse j = some m ∧ m.result = some resultRaw
        ∧ decodeMCPResult resultRaw = some result
        ∧ markOracleErrors flag j =
            encodeMCPResponse
              { m with result := some (encodeMCPResult { result with isError := true }) }
        ∧ objKeys (markOracleErrors flag j) ⊆ ["jsonrpc", "id", "result", "error"]
        ∧ objKeys (encodeMCPResult { result with isError := true }) ⊆
            ["content", "isError"] := by
  rcases markOracleErrors_cases flag j with h |
    ⟨m, result, resultRaw, hd, hr, hres, he, ho, hflag, heq⟩
  · left; exact h
  · right
    refine ⟨m, result, resultRaw, hd, hr, hres, heq, ?_, ?_⟩
    · rw [heq]
      obtain ⟨s, i, r, e⟩ := m
      cases i <;> cases e <;>
        simp [objKeys, encodeMCPResponse, optField, List.subset_def]
    · obtain ⟨c, e⟩ := result
      cases c <;> simp [objKeys, encodeMCPResult, List.subset_def]
